import Mathlib

/-!
Shallow embedding of the micro-di dependency-injection container
(HereMobilityDevelopers/micro-di, main implementation file with
`RegisterResolver` / `OverrideResolver` / `RegisterSingleton` /
`OverrideSingleton` / `Resolve` / `Transform` / `Construct` / `Inject` /
`MapInject` / `Dynamic` / `Lazy` and the `ResolveOnce` and
`DefineLazyProperty` helpers).

Modelling decisions, all traceable to the source:

* Tokens are either name tokens (strings; the source also admits symbols,
  which behave identically for everything proved here) or type tokens
  (classes, identified by a numeric class id).
* The registry for name tokens is the source's `resolvers = new Map()`
  object accessed with bracket indexing (`resolvers[token]`), i.e. plain
  JavaScript property access on the Map *object*: an own property is
  consulted first and, failing that, the prototype chain of the Map object
  (`Map.prototype`, then `Object.prototype`).  Those inherited properties
  are modelled by `mapProtoTruthyKeys` / `ResolverV.builtin` below; the
  `size` accessor is omitted from the truthy list because on this Map (to
  which no entry is ever added with `Map.prototype.set`) it yields `0`,
  which is falsy and therefore indistinguishable from "absent" for this
  code.  Assignment `resolvers[token] = r` creates an own property (the
  exotic behaviour of assigning to the inherited `"__proto__"` accessor is
  not modelled; no theorem below registers under that key).
* A type token stores its resolver as the `$dependencyResolver` property of
  the class's prototype object; reading walks the prototype chain (so a
  subclass sees its superclass's resolver), writing creates an own
  property.  `ClassTable.parents c` lists the strict ancestors of class
  `c`, nearest first, so the full prototype chain is `c :: parents c`.
* Constructed objects are recorded as `Value.obj c args`: the value "the
  instance produced by invoking class c's constructor with the positional
  argument list args".  Instances produced by an opaque effectful resolver
  (used to count constructions) are `Value.inst rid k`: the `k`-th instance
  produced by counting resolver `rid`.
* Resolver functions are embedded as the inductive `ResolverV`: the closed
  resolver forms the library itself builds (`constF` for `() => instance`,
  `constructF` for `(...args) => Construct(target, ...args)`, `onceF` for
  the `ResolveOnce` wrapper) together with opaque pure functions
  (`pureFn`, semantics given by an environment) and an opaque counting
  resolver (`counting`) whose only effect is bumping a counter in the
  state, standing for "a resolver with an observable construction side
  effect".
* All recursion through the registry (`Resolve` → resolver → `Construct` →
  `Resolve` …) is fuel-indexed; `JsErr.noFuel` marks exhaustion and every
  theorem quantifies over or supplies sufficient fuel.
-/

namespace MicroDI

/-- Identifier of a class (a constructable type). -/
abbrev ClassId := Nat

/-- A dependency token: `Token<T> = Constructable<T> | string | symbol`
(name tokens cover the string and symbol cases). -/
inductive Token where
  | name (key : String)
  | type (c : ClassId)
deriving DecidableEq, Repr

/-- JavaScript values that flow through the container. -/
inductive Value where
  /-- The object produced by `new c(...args)`. -/
  | obj (c : ClassId) (args : List Value)
  /-- The `k`-th instance produced by opaque counting resolver `rid`. -/
  | inst (rid : Nat) (k : Nat)
  | str (s : String)
  | num (n : Nat)
  | bool (b : Bool)
  /-- A zero-argument function value (a lazy-argument thunk). -/
  | fnThunk (id : Nat)
  | undef
deriving Repr

/-- Resolver functions, `Resolver<T> = (...args: any[]) => T`. -/
inductive ResolverV where
  /-- An opaque pure resolver; its input/output behaviour is
  `Env.fnSem fid`. -/
  | pureFn (fid : Nat)
  /-- An opaque resolver that records each invocation by bumping counter
  `rid` in the state and returns a fresh instance. -/
  | counting (rid : Nat)
  /-- `() => instance` — installed by the `ResolveOnce` wrapper after the
  first resolution. -/
  | constF (v : Value)
  /-- `(...args) => Construct(target, ...args)` — installed by
  `Resolvable` / `Singleton` when no explicit resolver is given. -/
  | constructF (c : ClassId)
  /-- `ResolveOnce(token, resolve)` — the memoizing wrapper. -/
  | onceF (t : Token) (r : ResolverV)
  /-- A function (or truthy non-function) inherited by the `resolvers` Map
  object from `Map.prototype` / `Object.prototype` via bracket access. -/
  | builtin (key : String)
deriving Repr

/-- One injector slot: `class Injector { token, map, args }`.  The
transform `map` is an opaque pure function identified by an id
(semantics `Env.tfSem`). -/
structure InjectorV where
  token : Token
  map : Option Nat
  args : List Value
deriving Repr

/-- One property slot on a class's prototype object, as installed by the
property decorators. -/
inductive PropSlot where
  /-- Installed by `DefineLazyProperty` (decorators `Lazy` / `LazyMap`,
  modelled here without the transform): a getter that resolves once and
  then replaces itself. -/
  | lazyG (t : Token) (args : List Value)
  /-- Installed by `DefineDynamicProperty` (decorator `Dynamic`): a getter
  that resolves on every access. -/
  | dynG (t : Token) (args : List Value)
  /-- A plain data property holding `v`. -/
  | dataV (v : Value)
deriving Repr

/-- Static information about the classes of the program: strict prototype
ancestors (nearest first), the `design:paramtypes` reflection metadata of
the constructor, and the display name used by `toString`. -/
structure ClassTable where
  parents : ClassId → List ClassId
  paramTypes : ClassId → List Token
  className : ClassId → String

/-- Semantics of the opaque pure functions appearing in the model:
`fnSem` for `ResolverV.pureFn`, `tfSem` for transforms, `thunkSem` for
zero-argument function values used as lazy arguments. -/
structure Env where
  fnSem : Nat → List Value → Value
  tfSem : Nat → Value → Value
  thunkSem : Nat → Value

/-- The mutable state of the container: own properties of the `resolvers`
Map object, own `$dependencyResolver` / `$dependencyInjectors` properties
per class prototype, own decorated property slots per class prototype, and
the invocation counters of the counting resolvers. -/
structure DIState where
  named : List (String × ResolverV)
  typeRes : List (ClassId × ResolverV)
  injectors : List (ClassId × List InjectorV)
  protoProps : List (ClassId × List (String × PropSlot))
  counters : List (Nat × Nat)
deriving Repr

/-- The state of a freshly loaded module: nothing registered. -/
def emptyState : DIState :=
  ⟨[], [], [], [], []⟩

/-- Association-list lookup (first match wins). -/
def aget {α β : Type} [DecidableEq α] (l : List (α × β)) (k : α) : Option β :=
  match l with
  | [] => none
  | (k', v) :: rest => if k' = k then some v else aget rest k

/-- Association-list update: replace the binding of `k`, or add one. -/
def aset {α β : Type} [DecidableEq α] (l : List (α × β)) (k : α) (v : β) :
    List (α × β) :=
  match l with
  | [] => [(k, v)]
  | (k', v') :: rest => if k' = k then (k, v) :: rest else (k', v') :: aset rest k v

theorem aget_aset_self {α β : Type} [DecidableEq α]
    (l : List (α × β)) (k : α) (v : β) : aget (aset l k v) k = some v := by
  induction l with
  | nil => simp [aget, aset]
  | cons h t ih =>
    obtain ⟨k', v'⟩ := h
    by_cases hk : k' = k
    · simp [aget, aset, hk]
    · simp [aget, aset, hk, ih]

theorem aget_aset_ne {α β : Type} [DecidableEq α]
    (l : List (α × β)) (k k' : α) (v : β) (hne : k ≠ k') :
    aget (aset l k v) k' = aget l k' := by
  induction l with
  | nil => simp [aget, aset, hne]
  | cons h t ih =>
    obtain ⟨k₀, v₀⟩ := h
    by_cases hk : k₀ = k
    · subst hk
      simp [aget, aset, hne]
    · simp only [aset, if_neg hk, aget]
      by_cases hk' : k₀ = k'
      · simp [hk']
      · simp [hk', ih]

/-- String keys of the function-valued (or otherwise truthy) properties
that the `resolvers` Map object inherits from `Map.prototype` and
`Object.prototype`, visible through `resolvers[token]`.  The `size`
accessor is excluded: it yields `0` here, which is falsy. -/
def mapProtoTruthyKeys : List String :=
  ["constructor", "get", "set", "has", "delete", "clear", "forEach",
   "entries", "keys", "values", "toString", "toLocaleString", "valueOf",
   "hasOwnProperty", "isPrototypeOf", "propertyIsEnumerable", "__proto__",
   "__defineGetter__", "__defineSetter__", "__lookupGetter__",
   "__lookupSetter__"]

/-- `resolvers[token]` for a name token: own property first, then the Map
object's prototype chain. -/
def getNamedResolver (s : DIState) (k : String) : Option ResolverV :=
  match aget s.named k with
  | some r => some r
  | none => if k ∈ mapProtoTruthyKeys then some (.builtin k) else none

/-- The prototype chain of class `c`, the class itself first. -/
def protoChain (ct : ClassTable) (c : ClassId) : List ClassId :=
  c :: ct.parents c

/-- Reads property `$dependencyResolver` through the prototype chain of a
type token (`token.prototype.$dependencyResolver`). -/
def getTypeResolverAux (s : DIState) : List ClassId → Option ResolverV
  | [] => none
  | c :: rest =>
    match aget s.typeRes c with
    | some r => some r
    | none => getTypeResolverAux s rest

/-- `GetResolver(token)` — source lines 19–23.  Returns `none` exactly when
the JavaScript expression is falsy. -/
def GetResolver (ct : ClassTable) (s : DIState) (t : Token) :
    Option ResolverV :=
  match t with
  | .name k => getNamedResolver s k
  | .type c => getTypeResolverAux s (protoChain ct c)

/-- `SetResolver(token, resolver)` — source lines 25–28.  Writes an own
property (on the `resolvers` object or on the class's own prototype). -/
def SetResolver (s : DIState) (t : Token) (r : ResolverV) : DIState :=
  match t with
  | .name k => { s with named := aset s.named k r }
  | .type c => { s with typeRes := aset s.typeRes c r }

/-- `RegisterResolver(token, resolver)` — registers only if absent. -/
def RegisterResolver (ct : ClassTable) (s : DIState) (t : Token)
    (r : ResolverV) : DIState :=
  if (GetResolver ct s t).isSome then s else SetResolver s t r

/-- `OverrideResolver(token, resolver)` — unconditional replacement. -/
def OverrideResolver (s : DIState) (t : Token) (r : ResolverV) : DIState :=
  SetResolver s t r

/-- `ResolveOnce(token, resolve)` — the memoizing wrapper value. -/
def ResolveOnce (t : Token) (r : ResolverV) : ResolverV :=
  .onceF t r

/-- `RegisterSingleton(token, resolver)` — memoizing registration, only if
absent. -/
def RegisterSingleton (ct : ClassTable) (s : DIState) (t : Token)
    (r : ResolverV) : DIState :=
  if (GetResolver ct s t).isSome then s else SetResolver s t (ResolveOnce t r)

/-- `OverrideSingleton(token, resolver)` — unconditional memoizing
registration. -/
def OverrideSingleton (s : DIState) (t : Token) (r : ResolverV) : DIState :=
  SetResolver s t (ResolveOnce t r)

/-- Display form of a token, as interpolated into the error message by
`token.toString()`. -/
def tokenToString (ct : ClassTable) (t : Token) : String :=
  match t with
  | .name k => k
  | .type c => ct.className c

/-- Errors: the `Trying to resolve unregistered token` Error, TypeErrors
raised by invoking inherited Map/Object prototype members unbound, and
fuel exhaustion of the model. -/
inductive JsErr where
  | unregistered (msg : String)
  | typeError
  | noFuel
deriving DecidableEq, Repr

/-- Is the value a JavaScript object (for `isPrototypeOf`)? -/
def Value.isJsObject : Value → Bool
  | .obj _ _ => true
  | .inst _ _ => true
  | _ => false

/-- Invoking an inherited Map/Object prototype member as a resolver, i.e.
as an unbound strict-mode call (`this = undefined`).
`Object.prototype.toString.call(undefined)` returns the string
`"[object Undefined]"`; `isPrototypeOf` returns `false` when its first
argument is not an object (before touching `this`); every other inherited
member (Map methods needing a Map receiver, the `Map` constructor called
without `new`, `Object.prototype` members converting `this` to an object,
the prototype object delivered by the `__proto__` getter, which is not
callable) throws a TypeError. -/
def builtinCall (b : String) (args : List Value) (s : DIState) :
    Except JsErr (Value × DIState) :=
  if b = "toString" then .ok (.str "[object Undefined]", s)
  else if b = "isPrototypeOf" then
    match args.head? with
    | some v => if v.isJsObject then .error .typeError else .ok (.bool false, s)
    | none => .ok (.bool false, s)
  else .error .typeError

/-- Reads property `$dependencyInjectors` through the prototype chain. -/
def getInjectorsAux (s : DIState) : List ClassId → Option (List InjectorV)
  | [] => none
  | c :: rest =>
    match aget s.injectors c with
    | some l => some l
    | none => getInjectorsAux s rest

/-- `target.prototype.$dependencyInjectors`, prototype chain included. -/
def getInjectors (ct : ClassTable) (s : DIState) (c : ClassId) :
    Option (List InjectorV) :=
  getInjectorsAux s (protoChain ct c)

/-- `ReflectMetadataIfNeeded(target)` — source lines 34–39: if the class
does not yet see a `$dependencyInjectors` array (own or inherited), create
its own, one `Injector(paramType, null, [])` per reflected constructor
parameter type. -/
def ReflectMetadataIfNeeded (ct : ClassTable) (s : DIState) (c : ClassId) :
    DIState :=
  if (getInjectors ct s c).isSome then s
  else { s with injectors :=
          (aset s.injectors c ((ct.paramTypes c).map fun tk => ⟨tk, none, []⟩)) }

/-- Helper for the write `target.prototype.$dependencyInjectors[idx] = inj`:
the array is found through the prototype chain and its element `idx` is
replaced in place.  (`List.set` leaves the list unchanged out of range;
the decorators only write at a parameter index of the reflected
constructor, which is in range.)  If no array exists anywhere on the chain
the write is unreachable, because the decorators run
`ReflectMetadataIfNeeded` first. -/
def setInjectorSlotAux (s : DIState) (idx : Nat) (inj : InjectorV) :
    List ClassId → DIState
  | [] => s
  | d :: rest =>
    match aget s.injectors d with
    | some l => { s with injectors := aset s.injectors d (l.set idx inj) }
    | none => setInjectorSlotAux s idx inj rest

/-- Writes the injector slot `idx` of class `c` through the prototype
chain. -/
def setInjectorSlot (ct : ClassTable) (s : DIState) (c : ClassId) (idx : Nat)
    (inj : InjectorV) : DIState :=
  setInjectorSlotAux s idx inj (protoChain ct c)

/-- `Inject(token, ...args)` applied to parameter `idx` of class `c` —
source lines 241–250. -/
def Inject (ct : ClassTable) (s : DIState) (tok : Token) (args : List Value)
    (c : ClassId) (idx : Nat) : DIState :=
  setInjectorSlot ct (ReflectMetadataIfNeeded ct s c) c idx ⟨tok, none, args⟩

/-- `MapInject(token, map, ...args)` applied to parameter `idx` of class
`c` — source lines 260–273. -/
def MapInject (ct : ClassTable) (s : DIState) (tok : Token) (fid : Nat)
    (args : List Value) (c : ClassId) (idx : Nat) : DIState :=
  setInjectorSlot ct (ReflectMetadataIfNeeded ct s c) c idx ⟨tok, some fid, args⟩

mutual

/-- Invocation of a resolver value with an argument list: `resolve(...args)`.
The `onceF` case is `ResolveOnce` (source lines 52–58): invoke the wrapped
resolver, then `OverrideResolver(token, () => instance)`, then return the
instance. -/
def interpInvoke (ct : ClassTable) (env : Env) :
    Nat → ResolverV → List Value → DIState → Except JsErr (Value × DIState)
  | 0, _, _, _ => .error .noFuel
  | _ + 1, .pureFn fid, args, s => .ok (env.fnSem fid args, s)
  | _ + 1, .counting rid, _, s =>
    let k := (aget s.counters rid).getD 0
    .ok (.inst rid k, { s with counters := (aset s.counters rid (k + 1)) })
  | _ + 1, .constF v, _, s => .ok (v, s)
  | fuel + 1, .constructF c, args, s => interpConstruct ct env fuel c args s
  | fuel + 1, .onceF t inner, args, s =>
    match interpInvoke ct env fuel inner args s with
    | .ok (v, s') => .ok (v, OverrideResolver s' t (.constF v))
    | .error e => .error e
  | _ + 1, .builtin b, args, s => builtinCall b args s

/-- `Resolve(token, ...args)` — source lines 78–82: look the resolver up,
invoke it if truthy, otherwise throw
`Error("Trying to resolve unregistered token: " + token.toString())`. -/
def interpResolve (ct : ClassTable) (env : Env) :
    Nat → Token → List Value → DIState → Except JsErr (Value × DIState)
  | 0, _, _, _ => .error .noFuel
  | fuel + 1, t, args, s =>
    match GetResolver ct s t with
    | some r => interpInvoke ct env fuel r args s
    | none =>
      .error (.unregistered
        ("Trying to resolve unregistered token: " ++ tokenToString ct t))

/-- `Transform(token, transform, ...args) = transform(Resolve(token, ...args))`
— source lines 88–90. -/
def interpTransform (ct : ClassTable) (env : Env) :
    Nat → Token → Nat → List Value → DIState → Except JsErr (Value × DIState)
  | 0, _, _, _, _ => .error .noFuel
  | fuel + 1, t, fid, args, s =>
    match interpResolve ct env fuel t args s with
    | .ok (v, s') => .ok (env.tfSem fid v, s')
    | .error e => .error e

/-- `Construct(target, ...args)` — source lines 99–106.  With explicit
arguments, or with no `$dependencyInjectors` in sight, it is
`new target(...args)` (the `||` short-circuits, so with explicit arguments
the injector property is not even read).  Otherwise each injector is
resolved in index order (`Transform` when a `map` is present, `Resolve`
otherwise) and the results become the positional constructor arguments. -/
def interpConstruct (ct : ClassTable) (env : Env) :
    Nat → ClassId → List Value → DIState → Except JsErr (Value × DIState)
  | 0, _, _, _ => .error .noFuel
  | _ + 1, c, a :: args, s => .ok (.obj c (a :: args), s)
  | fuel + 1, c, [], s =>
    match getInjectors ct s c with
    | none => .ok (.obj c [], s)
    | some injs =>
      match interpDeps ct env fuel injs s with
      | .ok (deps, s') => .ok (.obj c deps, s')
      | .error e => .error e

/-- The `target.prototype.$dependencyInjectors.map(...)` loop inside
`Construct`: left to right, threading the state. -/
def interpDeps (ct : ClassTable) (env : Env) :
    Nat → List InjectorV → DIState → Except JsErr (List Value × DIState)
  | 0, _, _ => .error .noFuel
  | _ + 1, [], s => .ok ([], s)
  | fuel + 1, inj :: rest, s =>
    let step :=
      match inj.map with
      | some fid => interpTransform ct env fuel inj.token fid inj.args s
      | none => interpResolve ct env fuel inj.token inj.args s
    match step with
    | .ok (v, s') =>
      match interpDeps ct env fuel rest s' with
      | .ok (vs, s'') => .ok (v :: vs, s'')
      | .error e => .error e
    | .error e => .error e

end

/-- `ResolveOrConstruct(target, resolver?)` — source lines 108–111. -/
def ResolveOrConstruct (c : ClassId) (resolver : Option ResolverV) :
    ResolverV :=
  match resolver with
  | some r => r
  | none => .constructF c

/-- `Resolvable(resolver?)` applied to class `c` — source lines 116–121. -/
def Resolvable (ct : ClassTable) (s : DIState) (c : ClassId)
    (resolver : Option ResolverV) : DIState :=
  RegisterResolver ct (ReflectMetadataIfNeeded ct s c) (.type c)
    (ResolveOrConstruct c resolver)

/-- `Singleton(resolver?)` applied to class `c` — source lines 128–133. -/
def Singleton (ct : ClassTable) (s : DIState) (c : ClassId)
    (resolver : Option ResolverV) : DIState :=
  RegisterSingleton ct (ReflectMetadataIfNeeded ct s c) (.type c)
    (ResolveOrConstruct c resolver)

/-- Own decorated property slots of class `c`'s prototype object. -/
def protoPropsOf (s : DIState) (c : ClassId) : List (String × PropSlot) :=
  (aget s.protoProps c).getD []

/-- Defines (or redefines) property `p` on class `c`'s prototype object. -/
def setProtoProp (s : DIState) (c : ClassId) (p : String) (slot : PropSlot) :
    DIState :=
  { s with protoProps := (aset s.protoProps c (aset (protoPropsOf s c) p slot)) }

/-- `Lazy(token, ...args)` applied to property `p` declared by class `c`
— source lines 207–211: `DefineLazyProperty` installs a self-replacing
getter on the prototype object the decorator receives. -/
def Lazy (s : DIState) (tok : Token) (args : List Value) (c : ClassId)
    (p : String) : DIState :=
  setProtoProp s c p (.lazyG tok args)

/-- `Dynamic(token, ...args)` applied to property `p` declared by class `c`
— source lines 153–157: `DefineDynamicProperty` installs a getter that
resolves on every access. -/
def Dynamic (s : DIState) (tok : Token) (args : List Value) (c : ClassId)
    (p : String) : DIState :=
  setProtoProp s c p (.dynG tok args)

/-- Finds the property slot for `p` seen from class `c`, walking the
prototype chain; returns the owning class together with the slot. -/
def findPropSlotAux (s : DIState) (p : String) :
    List ClassId → Option (ClassId × PropSlot)
  | [] => none
  | d :: rest =>
    match aget (protoPropsOf s d) p with
    | some slot => some (d, slot)
    | none => findPropSlotAux s p rest

/-- The slot backing a read of property `p` through an instance of class
`c`.  Instances carry no own slot for decorated properties (the decorators
define them on the prototype), so the lookup starts at `c`'s prototype. -/
def findPropSlot (ct : ClassTable) (s : DIState) (c : ClassId) (p : String) :
    Option (ClassId × PropSlot) :=
  findPropSlotAux s p (protoChain ct c)

/-- Reading property `p` through an instance of class `c` (the parameter
`instId` identifies the instance; decorated properties live on the shared
prototype, so the result cannot depend on it).  A `lazyG` slot is the
getter installed by `DefineLazyProperty` (source lines 181–195): resolve,
then redefine the property on the *same prototype object* (`target` is
captured by the closure) as a data property holding the instance, then
return it.  A `dynG` slot resolves on every access.  A data property is
returned as is.  An absent property reads as `undefined`. -/
def interpReadProp (ct : ClassTable) (env : Env) :
    Nat → Nat → ClassId → String → DIState → Except JsErr (Value × DIState)
  | 0, _, _, _, _ => .error .noFuel
  | fuel + 1, _instId, c, p, s =>
    match findPropSlot ct s c p with
    | none => .ok (.undef, s)
    | some (_, .dataV v) => .ok (v, s)
    | some (_, .dynG tok args) => interpResolve ct env fuel tok args s
    | some (d, .lazyG tok args) =>
      match interpResolve ct env fuel tok args s with
      | .ok (v, s') => .ok (v, setProtoProp s' d p (.dataV v))
      | .error e => .error e

/-- The `resolveArguments` helper of the older revision of the library
(src/src/index.ts lines 102–104): `args.map(arg => arg instanceof Function
? arg() : arg)` — a zero-argument function supplied as a bound argument is
invoked and its return value substituted.  The current main implementation
file does not call any such helper: `Construct`, `Dynamic`, `Lazy` and
`Inject` pass their bound arguments to the resolver verbatim. -/
def resolveArguments (env : Env) (args : List Value) : List Value :=
  args.map fun a =>
    match a with
    | .fnThunk id => env.thunkSem id
    | _ => a

/-- Iterated resolution of the same token with varying argument lists,
used to state "every subsequent resolve" properties. -/
def resolveMany (ct : ClassTable) (env : Env) (fuel : Nat) (t : Token) :
    List (List Value) → DIState → Except JsErr (List Value × DIState)
  | [], s => .ok ([], s)
  | args :: rest, s =>
    match interpResolve ct env fuel t args s with
    | .ok (v, s') =>
      match resolveMany ct env fuel t rest s' with
      | .ok (vs, s'') => .ok (v :: vs, s'')
      | .error e => .error e
    | .error e => .error e

theorem aset_aset_same {α β : Type} [DecidableEq α]
    (l : List (α × β)) (k : α) (v w : β) :
    aset (aset l k v) k w = aset l k w := by
  induction l with
  | nil => simp [aset]
  | cons h t ih =>
    obtain ⟨k', v'⟩ := h
    by_cases hk : k' = k
    · simp [aset, hk]
    · simp [aset, hk, ih]

/-- After `SetResolver(t, r)`, `GetResolver(t)` yields `r`: the own
property written is the one read first, before the prototype chain. -/
theorem getResolver_setResolver_self (ct : ClassTable) (s : DIState)
    (t : Token) (r : ResolverV) :
    GetResolver ct (SetResolver s t r) t = some r := by
  cases t with
  | name k =>
    simp [GetResolver, SetResolver, getNamedResolver, aget_aset_self]
  | type c =>
    simp [GetResolver, SetResolver, protoChain, getTypeResolverAux,
      aget_aset_self]

theorem registerResolver_of_absent (ct : ClassTable) (s : DIState)
    (t : Token) (r : ResolverV) (h : GetResolver ct s t = none) :
    RegisterResolver ct s t r = SetResolver s t r := by
  simp [RegisterResolver, h]

theorem registerResolver_of_present (ct : ClassTable) (s : DIState)
    (t : Token) (r : ResolverV) (h : (GetResolver ct s t).isSome) :
    RegisterResolver ct s t r = s := by
  simp [RegisterResolver, h]

/-- C4 — Idempotent soft-registration.  For every token and resolvers R1,
R2, the second `registerIfAbsent` is a silent no-op: the state after
`registerIfAbsent(T,R1); registerIfAbsent(T,R2)` is literally the state
after the first call alone, so any following `resolve(T, ...)` — indeed
the entire rest of the execution — behaves as if only R1 had been
registered. -/
theorem registerIfAbsent_second_noop (ct : ClassTable) (env : Env)
    (s : DIState) (T : Token) (R1 R2 : ResolverV) :
    RegisterResolver ct (RegisterResolver ct s T R1) T R2 =
      RegisterResolver ct s T R1 ∧
    ∀ fuel args,
      interpResolve ct env fuel T args
          (RegisterResolver ct (RegisterResolver ct s T R1) T R2) =
        interpResolve ct env fuel T args (RegisterResolver ct s T R1) := by
  have hmain : RegisterResolver ct (RegisterResolver ct s T R1) T R2 =
      RegisterResolver ct s T R1 := by
    cases hg : GetResolver ct s T with
    | some r0 =>
      have h1 : RegisterResolver ct s T R1 = s :=
        registerResolver_of_present ct s T R1 (by simp [hg])
      rw [h1]
      exact registerResolver_of_present ct s T R2 (by simp [hg])
    | none =>
      have h1 : RegisterResolver ct s T R1 = SetResolver s T R1 :=
        registerResolver_of_absent ct s T R1 hg
      rw [h1]
      exact registerResolver_of_present ct (SetResolver s T R1) T R2
        (by simp [getResolver_setResolver_self])
  exact ⟨hmain, fun fuel args => by rw [hmain]⟩

/-- C5 — Override wins.  After `registerIfAbsent(T,R1); override(T,R2)`,
the registry entry for T is R2 and `resolve(T, ...args)` invokes R2:
`override` unconditionally replaces any existing entry, including one
installed by `registerIfAbsent`. -/
theorem override_replaces_registration (ct : ClassTable) (env : Env)
    (s : DIState) (T : Token) (R1 R2 : ResolverV) :
    GetResolver ct (OverrideResolver (RegisterResolver ct s T R1) T R2) T =
      some R2 ∧
    ∀ fuel args,
      interpResolve ct env (fuel + 1) T args
          (OverrideResolver (RegisterResolver ct s T R1) T R2) =
        interpInvoke ct env fuel R2 args
          (OverrideResolver (RegisterResolver ct s T R1) T R2) := by
  have hget : GetResolver ct
      (OverrideResolver (RegisterResolver ct s T R1) T R2) T = some R2 :=
    getResolver_setResolver_self ct (RegisterResolver ct s T R1) T R2
  refine ⟨hget, fun fuel args => ?_⟩
  simp [interpResolve, hget]

/-- C7 — Explicit arguments bypass injection.  With a non-empty argument
list, `Construct(X, v1, ..., vn)` is `new X(v1, ..., vn)` outright: the
`||` in the source short-circuits, so the injector slots are not even
read, no token is resolved, and the returned state is the input state —
registry and injector store untouched, whatever they contain. -/
theorem construct_explicit_args_bypass (ct : ClassTable) (env : Env)
    (fuel : Nat) (c : ClassId) (a : Value) (args : List Value) (s : DIState) :
    interpConstruct ct env (fuel + 1) c (a :: args) s = .ok (.obj c (a :: args), s) := by
  simp [interpConstruct]

/-- C2 counterexample.  The token `"toString"` is never registered, yet
`resolve("toString")` does not raise the unregistered-token Error: the
bracket lookup `resolvers["toString"]` finds `Object.prototype.toString`
inherited by the `resolvers` Map object, which is truthy, and the unbound
strict-mode call `resolve()` returns the string `"[object Undefined]"` —
so `Resolve` returns that junk value (and the registry is untouched). -/
theorem resolve_toString_no_error :
    interpResolve
        ⟨fun _ => [], fun _ => [], fun c => "class#" ++ toString c⟩
        ⟨fun _ _ => .undef, fun _ v => v, fun _ => .undef⟩
        2 (.name "toString") [] emptyState =
      .ok (.str "[object Undefined]", emptyState) := by
  rfl

/-- C2 amended — Unregistered token fails.  For a name token that has no
own registry entry and is not one of the property keys the `resolvers`
Map object inherits from `Map.prototype`/`Object.prototype`, and for a
type token none of whose prototype-chain classes carries a resolver,
`resolve` synchronously raises the
`Trying to resolve unregistered token: <token>` Error, whose message
carries the token's display form; it never silently returns
`undefined`/`null`. -/
theorem resolve_unregistered_raises (ct : ClassTable) (env : Env) :
    (∀ fuel k args s, aget s.named k = none → k ∉ mapProtoTruthyKeys →
      interpResolve ct env (fuel + 1) (.name k) args s =
        .error (.unregistered ("Trying to resolve unregistered token: " ++ k))) ∧
    (∀ fuel c args s, (∀ d ∈ protoChain ct c, aget s.typeRes d = none) →
      interpResolve ct env (fuel + 1) (.type c) args s =
        .error (.unregistered
          ("Trying to resolve unregistered token: " ++ ct.className c))) := by
  constructor
  · intro fuel k args s hown hinh
    have hget : GetResolver ct s (.name k) = none := by
      simp [GetResolver, getNamedResolver, hown, hinh]
    simp [interpResolve, hget, tokenToString]
  · intro fuel c args s hchain
    have hget : GetResolver ct s (.type c) = none := by
      have haux : ∀ l, (∀ d ∈ l, aget s.typeRes d = none) →
          getTypeResolverAux s l = none := by
        intro l
        induction l with
        | nil => intro _; rfl
        | cons d rest ih =>
          intro h
          have hd := h d (by simp)
          simp [getTypeResolverAux, hd]
          exact ih fun e he => h e (by simp [he])
      exact haux (protoChain ct c) hchain
    simp [interpResolve, hget, tokenToString]

/-- Closed witness for the amended C2 theorem: the fresh name token
`"someService"` and the fresh class token of class 7 both fail with the
unregistered-token Error on the empty state. -/
theorem resolve_unregistered_raises_witness :
    interpResolve
        ⟨fun _ => [], fun _ => [], fun c => "class#" ++ toString c⟩
        ⟨fun _ _ => .undef, fun _ v => v, fun _ => .undef⟩
        3 (.name "someService") [] emptyState =
      .error (.unregistered
        "Trying to resolve unregistered token: someService") ∧
    interpResolve
        ⟨fun _ => [], fun _ => [], fun c => "class#" ++ toString c⟩
        ⟨fun _ _ => .undef, fun _ v => v, fun _ => .undef⟩
        3 (.type 7) [] emptyState =
      .error (.unregistered
        "Trying to resolve unregistered token: class#7") := by
  constructor
  · exact (resolve_unregistered_raises _ _).1 2 "someService" [] emptyState
      rfl (by decide)
  · exact (resolve_unregistered_raises _ _).2 2 7 [] emptyState
      (by intro d _; rfl)

/-- C1 — Singleton memoization.  Suppose token T is free, so
`registerSingletonIfAbsent(T, R)` installs the `ResolveOnce` wrapper, and
suppose the first `resolve(T, ...args)` succeeds, the wrapped resolver R
producing instance `v` with post-invocation state `s'`.  Then that first
call returns `v` and rewrites the registry entry for T to `() => v`; from
the resulting state `s₂`, *every* subsequent `resolve(T, ...args')`, with
any arguments and in any number, returns the identical instance `v` and
leaves the state — in particular every construction counter, hence R's
invocation count — completely unchanged, until some override replaces the
entry. -/
theorem singleton_memoizes (ct : ClassTable) (env : Env) (T : Token)
    (R : ResolverV) (s₀ : DIState) (fuel : Nat) (args : List Value)
    (v : Value) (s' : DIState)
    (habs : GetResolver ct s₀ T = none)
    (hfirst : interpInvoke ct env fuel R args
        (SetResolver s₀ T (ResolveOnce T R)) = .ok (v, s')) :
    RegisterSingleton ct s₀ T R = SetResolver s₀ T (ResolveOnce T R) ∧
    interpResolve ct env (fuel + 2) T args
        (SetResolver s₀ T (ResolveOnce T R)) =
      .ok (v, OverrideResolver s' T (.constF v)) ∧
    GetResolver ct (OverrideResolver s' T (.constF v)) T = some (.constF v) ∧
    (OverrideResolver s' T (.constF v)).counters = s'.counters ∧
    (∀ fuel' args',
      interpResolve ct env (fuel' + 2) T args'
          (OverrideResolver s' T (.constF v)) =
        .ok (v, OverrideResolver s' T (.constF v))) ∧
    (∀ fuel' argss,
      resolveMany ct env (fuel' + 2) T argss
          (OverrideResolver s' T (.constF v)) =
        .ok (argss.map fun _ => v, OverrideResolver s' T (.constF v))) := by
  have hreg : RegisterSingleton ct s₀ T R =
      SetResolver s₀ T (ResolveOnce T R) := by
    simp [RegisterSingleton, habs]
  have hget1 : GetResolver ct (SetResolver s₀ T (ResolveOnce T R)) T =
      some (.onceF T R) :=
    getResolver_setResolver_self ct s₀ T (ResolveOnce T R)
  have hfirstRes : interpResolve ct env (fuel + 2) T args
      (SetResolver s₀ T (ResolveOnce T R)) =
      .ok (v, OverrideResolver s' T (.constF v)) := by
    simp [interpResolve, hget1, interpInvoke, hfirst]
  have hget2 : GetResolver ct (OverrideResolver s' T (.constF v)) T =
      some (.constF v) :=
    getResolver_setResolver_self ct s' T (.constF v)
  have hsub : ∀ fuel' args',
      interpResolve ct env (fuel' + 2) T args'
          (OverrideResolver s' T (.constF v)) =
        .ok (v, OverrideResolver s' T (.constF v)) := by
    intro fuel' args'
    simp [interpResolve, hget2, interpInvoke]
  refine ⟨hreg, hfirstRes, hget2, ?_, hsub, ?_⟩
  · cases T with
    | name k => rfl
    | type c => rfl
  · intro fuel' argss
    induction argss with
    | nil => rfl
    | cons a rest ih =>
      simp [resolveMany, hsub fuel' a, ih]

/-- Closed witness for C1: on the empty state, register the counting
resolver 0 as a singleton under `"svc"`, resolve once (the resolver fires,
counter 0 becomes 1, instance `inst 0 0` is produced) and again with
different arguments: the identical instance comes back, the state — the
counter included — does not change. -/
theorem singleton_memoizes_witness :
    interpResolve
        ⟨fun _ => [], fun _ => [], fun c => "class#" ++ toString c⟩
        ⟨fun _ _ => .undef, fun _ v => v, fun _ => .undef⟩
        5 (.name "svc") []
        (RegisterSingleton
          ⟨fun _ => [], fun _ => [], fun c => "class#" ++ toString c⟩
          emptyState (.name "svc") (.counting 0)) =
      .ok (.inst 0 0,
        ⟨[("svc", .constF (.inst 0 0))], [], [], [], [(0, 1)]⟩) ∧
    interpResolve
        ⟨fun _ => [], fun _ => [], fun c => "class#" ++ toString c⟩
        ⟨fun _ _ => .undef, fun _ v => v, fun _ => .undef⟩
        5 (.name "svc") [.num 9, .str "ignored"]
        ⟨[("svc", .constF (.inst 0 0))], [], [], [], [(0, 1)]⟩ =
      .ok (.inst 0 0,
        ⟨[("svc", .constF (.inst 0 0))], [], [], [], [(0, 1)]⟩) := by
  have h := singleton_memoizes
      ⟨fun _ => [], fun _ => [], fun c => "class#" ++ toString c⟩
      ⟨fun _ _ => .undef, fun _ v => v, fun _ => .undef⟩
      (.name "svc") (.counting 0) emptyState 3 [] (.inst 0 0)
      ⟨[("svc", .onceF (.name "svc") (.counting 0))], [], [], [], [(0, 1)]⟩
      rfl rfl
  exact ⟨h.1 ▸ h.2.1, h.2.2.2.2.1 3 [.num 9, .str "ignored"]⟩

theorem getInjectors_own (ct : ClassTable) (s : DIState) (c : ClassId)
    (l : List InjectorV) (h : aget s.injectors c = some l) :
    getInjectors ct s c = some l := by
  simp [getInjectors, protoChain, getInjectorsAux, h]

theorem reflect_of_absent (ct : ClassTable) (s : DIState) (c : ClassId)
    (h : getInjectors ct s c = none) :
    ReflectMetadataIfNeeded ct s c =
      { s with injectors :=
          (aset s.injectors c
            ((ct.paramTypes c).map fun tk => ⟨tk, none, []⟩)) } := by
  simp [ReflectMetadataIfNeeded, h]

theorem reflect_of_present (ct : ClassTable) (s : DIState) (c : ClassId)
    (h : (getInjectors ct s c).isSome) :
    ReflectMetadataIfNeeded ct s c = s := by
  simp [ReflectMetadataIfNeeded, h]

theorem setInjectorSlot_own (ct : ClassTable) (s : DIState) (c : ClassId)
    (idx : Nat) (inj : InjectorV) (l : List InjectorV)
    (h : aget s.injectors c = some l) :
    setInjectorSlot ct s c idx inj =
      { s with injectors := (aset s.injectors c (l.set idx inj)) } := by
  simp [setInjectorSlot, protoChain, setInjectorSlotAux, h]

/-- Annotating parameter `idx` of a class whose injector array does not
exist yet first materializes the array from the reflected parameter types,
then overwrites slot `idx`. -/
theorem inject_on_fresh (ct : ClassTable) (s : DIState) (c : ClassId)
    (tok : Token) (args : List Value) (idx : Nat)
    (h : getInjectors ct s c = none) :
    Inject ct s tok args c idx =
      { s with injectors :=
          (aset s.injectors c
            (((ct.paramTypes c).map fun tk => ⟨tk, none, []⟩).set idx
              ⟨tok, none, args⟩)) } := by
  rw [Inject, reflect_of_absent ct s c h]
  rw [setInjectorSlot_own _ _ _ _ _ _ (aget_aset_self s.injectors c _)]
  simp [aset_aset_same]

/-- Annotating parameter `idx` of a class whose own injector array already
exists overwrites slot `idx` of that array and changes nothing else. -/
theorem inject_on_existing (ct : ClassTable) (s : DIState) (c : ClassId)
    (tok : Token) (args : List Value) (idx : Nat) (l : List InjectorV)
    (h : aget s.injectors c = some l) :
    Inject ct s tok args c idx =
      { s with injectors := (aset s.injectors c (l.set idx ⟨tok, none, args⟩)) } := by
  rw [Inject, reflect_of_present ct s c (by simp [getInjectors_own ct s c l h]),
    setInjectorSlot_own ct s c idx _ l h]

/-- C6 — Auto-construction order.  Class `c` declares two constructor
parameters; annotating parameter 0 with token A and parameter 1 with
token B — in either order, the resulting injector store is identical —
makes `Construct(c)` with no arguments invoke the constructor with the
positional argument list `(Resolve(A, ...aA), Resolve(B, ...aB))`: slot 0
is resolved first, slot 1 second (against the state slot 0 produced), and
the two results are passed to the constructor in index order. -/
theorem construct_resolves_in_index_order (ct : ClassTable) (env : Env)
    (s₀ : DIState) (c : ClassId) (A B : Token) (aA aB : List Value)
    (pt0 pt1 : Token) (fuel : Nat)
    (hni : getInjectors ct s₀ c = none)
    (hpt : ct.paramTypes c = [pt0, pt1]) :
    Inject ct (Inject ct s₀ A aA c 0) B aB c 1 =
      Inject ct (Inject ct s₀ B aB c 1) A aA c 0 ∧
    interpConstruct ct env (fuel + 4) c []
        (Inject ct (Inject ct s₀ A aA c 0) B aB c 1) =
      (match interpResolve ct env (fuel + 2) A aA
          (Inject ct (Inject ct s₀ A aA c 0) B aB c 1) with
       | .ok (vA, s1) =>
         (match interpResolve ct env (fuel + 1) B aB s1 with
          | .ok (vB, s2) => .ok (.obj c [vA, vB], s2)
          | .error e => .error e)
       | .error e => .error e) := by
  have hA0 : Inject ct s₀ A aA c 0 =
      { s₀ with injectors :=
          (aset s₀.injectors c [⟨A, none, aA⟩, ⟨pt1, none, []⟩]) } := by
    rw [inject_on_fresh ct s₀ c A aA 0 hni, hpt]
    rfl
  have hB1 : Inject ct s₀ B aB c 1 =
      { s₀ with injectors :=
          (aset s₀.injectors c [⟨pt0, none, []⟩, ⟨B, none, aB⟩]) } := by
    rw [inject_on_fresh ct s₀ c B aB 1 hni, hpt]
    rfl
  have hAB : Inject ct (Inject ct s₀ A aA c 0) B aB c 1 =
      { s₀ with injectors :=
          (aset s₀.injectors c [⟨A, none, aA⟩, ⟨B, none, aB⟩]) } := by
    rw [hA0, inject_on_existing ct _ c B aB 1 _ (aget_aset_self s₀.injectors c _)]
    simp [aset_aset_same, List.set]
  have hBA : Inject ct (Inject ct s₀ B aB c 1) A aA c 0 =
      { s₀ with injectors :=
          (aset s₀.injectors c [⟨A, none, aA⟩, ⟨B, none, aB⟩]) } := by
    rw [hB1, inject_on_existing ct _ c A aA 0 _ (aget_aset_self s₀.injectors c _)]
    simp [aset_aset_same, List.set]
  have horder : Inject ct (Inject ct s₀ A aA c 0) B aB c 1 =
      Inject ct (Inject ct s₀ B aB c 1) A aA c 0 := by
    rw [hAB, hBA]
  refine ⟨horder, ?_⟩
  have hinj : getInjectors ct (Inject ct (Inject ct s₀ A aA c 0) B aB c 1) c =
      some [⟨A, none, aA⟩, ⟨B, none, aB⟩] := by
    rw [hAB]
    exact getInjectors_own ct _ c _ (aget_aset_self s₀.injectors c _)
  rw [show fuel + 4 = (fuel + 3) + 1 by ring]
  simp only [interpConstruct, hinj]
  rw [show fuel + 3 = (fuel + 2) + 1 by ring]
  simp only [interpDeps]
  cases hA : interpResolve ct env (fuel + 2) A aA
      (Inject ct (Inject ct s₀ A aA c 0) B aB c 1) with
  | error e => rfl
  | ok p =>
    obtain ⟨vA, s1⟩ := p
    cases hB : interpResolve ct env (fuel + 1) B aB s1 with
    | error e => simp [hB]
    | ok q =>
      obtain ⟨vB, s2⟩ := q
      simp [hB]

/-- Closed witness for C6: class 1 declares two parameters (reflected
types class 2 and class 3); with `"a"` bound to 10 and `"b"` bound to 20,
annotating the parameters in either order and auto-constructing yields
`new`-arguments `[10, 20]` in index order. -/
theorem construct_resolves_in_index_order_witness :
    Inject ⟨fun _ => [], fun c => if c = 1 then [.type 2, .type 3] else [],
        fun c => "class#" ++ toString c⟩
      (Inject ⟨fun _ => [], fun c => if c = 1 then [.type 2, .type 3] else [],
          fun c => "class#" ++ toString c⟩
        ⟨[("a", .constF (.num 10)), ("b", .constF (.num 20))], [], [], [], []⟩
        (.name "a") [] 1 0) (.name "b") [] 1 1 =
      Inject ⟨fun _ => [], fun c => if c = 1 then [.type 2, .type 3] else [],
          fun c => "class#" ++ toString c⟩
        (Inject ⟨fun _ => [], fun c => if c = 1 then [.type 2, .type 3] else [],
            fun c => "class#" ++ toString c⟩
          ⟨[("a", .constF (.num 10)), ("b", .constF (.num 20))], [], [], [], []⟩
          (.name "b") [] 1 1) (.name "a") [] 1 0 ∧
    interpConstruct ⟨fun _ => [], fun c => if c = 1 then [.type 2, .type 3] else [],
        fun c => "class#" ++ toString c⟩
      ⟨fun _ _ => .undef, fun _ v => v, fun _ => .undef⟩ 5 1 []
      (Inject ⟨fun _ => [], fun c => if c = 1 then [.type 2, .type 3] else [],
          fun c => "class#" ++ toString c⟩
        (Inject ⟨fun _ => [], fun c => if c = 1 then [.type 2, .type 3] else [],
            fun c => "class#" ++ toString c⟩
          ⟨[("a", .constF (.num 10)), ("b", .constF (.num 20))], [], [], [], []⟩
          (.name "a") [] 1 0) (.name "b") [] 1 1) =
      .ok (.obj 1 [.num 10, .num 20],
        (Inject ⟨fun _ => [], fun c => if c = 1 then [.type 2, .type 3] else [],
            fun c => "class#" ++ toString c⟩
          (Inject ⟨fun _ => [], fun c => if c = 1 then [.type 2, .type 3] else [],
              fun c => "class#" ++ toString c⟩
            ⟨[("a", .constF (.num 10)), ("b", .constF (.num 20))], [], [], [], []⟩
            (.name "a") [] 1 0) (.name "b") [] 1 1)) := by
  have h := construct_resolves_in_index_order
      ⟨fun _ => [], fun c => if c = 1 then [.type 2, .type 3] else [],
        fun c => "class#" ++ toString c⟩
      ⟨fun _ _ => .undef, fun _ v => v, fun _ => .undef⟩
      ⟨[("a", .constF (.num 10)), ("b", .constF (.num 20))], [], [], [], []⟩
      1 (.name "a") (.name "b") [] [] (.type 2) (.type 3) 1 rfl rfl
  exact ⟨h.1, by rw [h.2]; rfl⟩

/-- C8 counterexample.  Class 1 declares two constructor parameters with
reflected types class 2 and class 3.  Annotating only parameter 0 (with
the name token `"A"`) materializes the slot array, and the *never
annotated* slot 1 is not empty: it holds a full injector whose token is
the reflected parameter type (class 3), with no transform and no bound
arguments — the array is created pre-filled from `design:paramtypes`, not
with empty slots. -/
theorem unannotated_slot_holds_reflected_token :
    aget (Inject ⟨fun _ => [], fun c => if c = 1 then [.type 2, .type 3] else [],
        fun c => "class#" ++ toString c⟩
      emptyState (.name "A") [] 1 0).injectors 1 =
      some [⟨.name "A", none, []⟩, ⟨.type 3, none, []⟩] := by
  rfl

/-- C8 amended.  The injector array of a class is created lazily, at the
first annotation, with one slot per declared constructor parameter — but
each slot is initialized to an injector carrying that parameter's
reflected type as token, a null transform and no bound arguments.
Annotating parameter `idx` overwrites exactly slot `idx`; every other
slot keeps its initial reflected-type injector (so an unannotated slot is
not empty — it resolves by the parameter's own type). -/
theorem inject_creates_prefilled_slots (ct : ClassTable) (s : DIState)
    (c : ClassId) (tok : Token) (args : List Value) (idx : Nat)
    (h : getInjectors ct s c = none) :
    aget (Inject ct s tok args c idx).injectors c =
      some (((ct.paramTypes c).map fun tk => ⟨tk, none, []⟩).set idx
        ⟨tok, none, args⟩) ∧
    (((ct.paramTypes c).map fun tk => (⟨tk, none, []⟩ : InjectorV)).set idx
        ⟨tok, none, args⟩).length = (ct.paramTypes c).length ∧
    (∀ j, j ≠ idx →
      (((ct.paramTypes c).map fun tk => (⟨tk, none, []⟩ : InjectorV)).set idx
          ⟨tok, none, args⟩)[j]? =
        ((ct.paramTypes c)[j]?).map fun tk => ⟨tk, none, []⟩) := by
  refine ⟨?_, ?_, ?_⟩
  · rw [inject_on_fresh ct s c tok args idx h]
    exact aget_aset_self s.injectors c _
  · simp
  · intro j hj
    rw [List.getElem?_set_ne (fun he => hj he.symm), List.getElem?_map]

/-- Closed witness for the amended C8 theorem, at the concrete input of
the counterexample: the array has length 2 and slot 1 keeps the
reflected-type injector for class 3. -/
theorem inject_creates_prefilled_slots_witness :
    aget (Inject ⟨fun _ => [], fun c => if c = 1 then [.type 2, .type 3] else [],
        fun c => "class#" ++ toString c⟩
      emptyState (.name "A") [] 1 0).injectors 1 =
      some ([(⟨.type 2, none, []⟩ : InjectorV), ⟨.type 3, none, []⟩].set 0
        ⟨.name "A", none, []⟩) ∧
    ([(⟨.type 2, none, []⟩ : InjectorV), ⟨.type 3, none, []⟩].set 0
        ⟨.name "A", none, []⟩)[1]? = some ⟨.type 3, none, []⟩ := by
  have h := inject_creates_prefilled_slots
      ⟨fun _ => [], fun c => if c = 1 then [.type 2, .type 3] else [],
        fun c => "class#" ++ toString c⟩
      emptyState 1 (.name "A") [] 0 rfl
  refine ⟨h.1, ?_⟩
  have h2 := h.2.2 1 (by decide)
  simp at h2
  simp [h2]

/-- C9 — Registry entries are shared down the subclass relation.  If class
`cC` carries a resolver R on its own prototype and its subclass `cS`
(whose prototype chain starts with `cC`) carries none of its own, then
`resolve(cS, ...)` finds and invokes R through the prototype chain, and
`registerIfAbsent(cS, R')` is a silent no-op — the inherited entry makes
the guard `!GetResolver(token)` false, so type-token entries are not
per-type-disjoint keys. -/
theorem subclass_shares_registry_entry (ct : ClassTable) (env : Env)
    (s : DIState) (cC cS : ClassId) (rest : List ClassId)
    (R R' : ResolverV) (fuel : Nat) (args : List Value)
    (hpar : ct.parents cS = cC :: rest)
    (hS : aget s.typeRes cS = none)
    (hC : aget s.typeRes cC = some R) :
    GetResolver ct s (.type cS) = some R ∧
    interpResolve ct env (fuel + 1) (.type cS) args s =
      interpInvoke ct env fuel R args s ∧
    RegisterResolver ct s (.type cS) R' = s := by
  have hget : GetResolver ct s (.type cS) = some R := by
    simp [GetResolver, protoChain, hpar, getTypeResolverAux, hS, hC]
  refine ⟨hget, ?_, ?_⟩
  · simp [interpResolve, hget]
  · simp [RegisterResolver, hget]

/-- Closed witness for C9: class 4 has a resolver delivering 3, class 5
extends class 4 and has none; resolving the subclass token yields 3 with
the state unchanged, and soft-registering under the subclass token
changes nothing. -/
theorem subclass_shares_registry_entry_witness :
    GetResolver ⟨fun c => if c = 5 then [4] else [], fun _ => [],
        fun c => "class#" ++ toString c⟩
      ⟨[], [(4, .constF (.num 3))], [], [], []⟩ (.type 5) =
      some (.constF (.num 3)) ∧
    interpResolve ⟨fun c => if c = 5 then [4] else [], fun _ => [],
        fun c => "class#" ++ toString c⟩
      ⟨fun _ _ => .undef, fun _ v => v, fun _ => .undef⟩
      3 (.type 5) [] ⟨[], [(4, .constF (.num 3))], [], [], []⟩ =
      .ok (.num 3, ⟨[], [(4, .constF (.num 3))], [], [], []⟩) ∧
    RegisterResolver ⟨fun c => if c = 5 then [4] else [], fun _ => [],
        fun c => "class#" ++ toString c⟩
      ⟨[], [(4, .constF (.num 3))], [], [], []⟩ (.type 5)
      (.counting 9) = ⟨[], [(4, .constF (.num 3))], [], [], []⟩ := by
  have h := subclass_shares_registry_entry
      ⟨fun c => if c = 5 then [4] else [], fun _ => [],
        fun c => "class#" ++ toString c⟩
      ⟨fun _ _ => .undef, fun _ v => v, fun _ => .undef⟩
      ⟨[], [(4, .constF (.num 3))], [], [], []⟩ 4 5 [] (.constF (.num 3))
      (.counting 9) 2 [] rfl rfl rfl
  exact ⟨h.1, by rw [h.2.1]; rfl, h.2.2⟩

/-- C3 — Lazy bound arguments are NOT resolved by the current code.
Failing input: class 1 has its parameter 0 annotated
`Inject("tok", f)` where `f` is the zero-argument function thunk 7
(producing `"That name!"`), and `"tok"` is registered with a resolver that
records verbatim the argument list it receives.  `Construct(1)` hands the
resolver the *unevaluated function value* `fnThunk 7` — the constructor
argument becomes an object built from the function itself — whereas the
`resolveArguments` helper of the older revision (and the behaviour
promised by the current revision's own doc comments and test suite) would
substitute the function's return value `"That name!"`.  The second
conjunct evaluates that documented helper on the same bound-argument list
to exhibit the divergence. -/
theorem construct_passes_thunk_unevaluated :
    interpConstruct
        ⟨fun _ => [], fun c => if c = 1 then [.type 2] else [],
          fun c => "class#" ++ toString c⟩
        ⟨fun _ args => .obj 99 args, fun _ v => v, fun _ => .str "That name!"⟩
        9 1 []
        (Inject ⟨fun _ => [], fun c => if c = 1 then [.type 2] else [],
            fun c => "class#" ++ toString c⟩
          (RegisterResolver
            ⟨fun _ => [], fun c => if c = 1 then [.type 2] else [],
              fun c => "class#" ++ toString c⟩
            emptyState (.name "tok") (.pureFn 0))
          (.name "tok") [.fnThunk 7] 1 0) =
      .ok (.obj 1 [.obj 99 [.fnThunk 7]],
        (Inject ⟨fun _ => [], fun c => if c = 1 then [.type 2] else [],
            fun c => "class#" ++ toString c⟩
          (RegisterResolver
            ⟨fun _ => [], fun c => if c = 1 then [.type 2] else [],
              fun c => "class#" ++ toString c⟩
            emptyState (.name "tok") (.pureFn 0))
          (.name "tok") [.fnThunk 7] 1 0)) ∧
    resolveArguments
        ⟨fun _ args => .obj 99 args, fun _ v => v, fun _ => .str "That name!"⟩
        [.fnThunk 7] = [.str "That name!"] := by
  exact ⟨rfl, rfl⟩

theorem setResolver_protoProps (s : DIState) (t : Token) (r : ResolverV) :
    (SetResolver s t r).protoProps = s.protoProps := by
  cases t <;> rfl

theorem builtinCall_ok_state (b : String) (args : List Value) (s : DIState)
    (out : Value × DIState) (h : builtinCall b args s = .ok out) :
    out.2 = s := by
  unfold builtinCall at h
  split_ifs at h
  · cases h
    rfl
  · cases hh : args.head? with
    | none =>
      rw [hh] at h
      cases h
      rfl
    | some v =>
      rw [hh] at h
      by_cases hv : v.isJsObject = true
      · simp [hv] at h
      · simp [hv] at h
        rw [← h]

/-- The resolution machinery never touches the decorated property slots:
any successful run of resolver invocation, `Resolve`, `Transform`,
`Construct` or the injector loop returns a state with the same
`protoProps` as the input state (the only state it writes is registry
entries and counters). -/
theorem interp_preserves_protoProps (ct : ClassTable) (env : Env) :
    ∀ fuel,
      (∀ r args s out, interpInvoke ct env fuel r args s = .ok out →
        out.2.protoProps = s.protoProps) ∧
      (∀ t args s out, interpResolve ct env fuel t args s = .ok out →
        out.2.protoProps = s.protoProps) ∧
      (∀ t fid args s out, interpTransform ct env fuel t fid args s = .ok out →
        out.2.protoProps = s.protoProps) ∧
      (∀ c args s out, interpConstruct ct env fuel c args s = .ok out →
        out.2.protoProps = s.protoProps) ∧
      (∀ injs s out, interpDeps ct env fuel injs s = .ok out →
        out.2.protoProps = s.protoProps) := by
  intro fuel
  induction fuel with
  | zero =>
    refine ⟨?_, ?_, ?_, ?_, ?_⟩
    · intro r args s out h
      simp [interpInvoke] at h
    · intro t args s out h
      simp [interpResolve] at h
    · intro t fid args s out h
      simp [interpTransform] at h
    · intro c args s out h
      simp [interpConstruct] at h
    · intro injs s out h
      simp [interpDeps] at h
  | succ fuel ih =>
    obtain ⟨ihInv, ihRes, ihTr, ihCon, ihDeps⟩ := ih
    have hInv : ∀ r args s out, interpInvoke ct env (fuel + 1) r args s = .ok out →
        out.2.protoProps = s.protoProps := by
      intro r args s out h
      obtain ⟨v, s'⟩ := out
      cases r with
      | pureFn fid =>
        simp [interpInvoke] at h
        rw [← h.2]
      | counting rid =>
        simp [interpInvoke] at h
        rw [← h.2]
      | constF w =>
        simp [interpInvoke] at h
        rw [← h.2]
      | constructF c =>
        simp only [interpInvoke] at h
        exact ihCon c args s (v, s') h
      | onceF t inner =>
        simp only [interpInvoke] at h
        cases hin : interpInvoke ct env fuel inner args s with
        | error e => simp [hin] at h
        | ok p =>
          obtain ⟨v0, s0⟩ := p
          simp only [hin, Except.ok.injEq, Prod.mk.injEq] at h
          rw [← h.2]
          have h1 := ihInv inner args s (v0, s0) hin
          calc (OverrideResolver s0 t (.constF v0)).protoProps
              = s0.protoProps := setResolver_protoProps s0 t (.constF v0)
            _ = s.protoProps := h1
      | builtin b =>
        simp only [interpInvoke] at h
        have := builtinCall_ok_state b args s (v, s') h
        rw [this]
    have hRes : ∀ t args s out, interpResolve ct env (fuel + 1) t args s = .ok out →
        out.2.protoProps = s.protoProps := by
      intro t args s out h
      simp only [interpResolve] at h
      cases hg : GetResolver ct s t with
      | some r =>
        simp only [hg] at h
        exact ihInv r args s out h
      | none => simp [hg] at h
    have hTr : ∀ t fid args s out,
        interpTransform ct env (fuel + 1) t fid args s = .ok out →
        out.2.protoProps = s.protoProps := by
      intro t fid args s out h
      obtain ⟨v, s'⟩ := out
      simp only [interpTransform] at h
      cases hr : interpResolve ct env fuel t args s with
      | error e => simp [hr] at h
      | ok p =>
        obtain ⟨v0, s0⟩ := p
        simp only [hr, Except.ok.injEq, Prod.mk.injEq] at h
        rw [← h.2]
        exact ihRes t args s (v0, s0) hr
    have hDeps : ∀ injs s out, interpDeps ct env (fuel + 1) injs s = .ok out →
        out.2.protoProps = s.protoProps := by
      intro injs s out h
      obtain ⟨vs, s'⟩ := out
      cases injs with
      | nil =>
        simp [interpDeps] at h
        rw [← h.2]
      | cons inj rest =>
        simp only [interpDeps] at h
        cases hm : inj.map with
        | some fid =>
          simp only [hm] at h
          cases hstep : interpTransform ct env fuel inj.token fid inj.args s with
          | error e => simp [hstep] at h
          | ok p =>
            obtain ⟨v0, s0⟩ := p
            simp only [hstep] at h
            cases hrest : interpDeps ct env fuel rest s0 with
            | error e => simp [hrest] at h
            | ok q =>
              obtain ⟨vs1, s1⟩ := q
              simp only [hrest, Except.ok.injEq, Prod.mk.injEq] at h
              rw [← h.2]
              calc s1.protoProps = s0.protoProps :=
                  ihDeps rest s0 (vs1, s1) hrest
                _ = s.protoProps := ihTr inj.token fid inj.args s (v0, s0) hstep
        | none =>
          simp only [hm] at h
          cases hstep : interpResolve ct env fuel inj.token inj.args s with
          | error e => simp [hstep] at h
          | ok p =>
            obtain ⟨v0, s0⟩ := p
            simp only [hstep] at h
            cases hrest : interpDeps ct env fuel rest s0 with
            | error e => simp [hrest] at h
            | ok q =>
              obtain ⟨vs1, s1⟩ := q
              simp only [hrest, Except.ok.injEq, Prod.mk.injEq] at h
              rw [← h.2]
              calc s1.protoProps = s0.protoProps :=
                  ihDeps rest s0 (vs1, s1) hrest
                _ = s.protoProps := ihRes inj.token inj.args s (v0, s0) hstep
    have hCon : ∀ c args s out, interpConstruct ct env (fuel + 1) c args s = .ok out →
        out.2.protoProps = s.protoProps := by
      intro c args s out h
      obtain ⟨v, s'⟩ := out
      cases args with
      | cons a rest =>
        simp [interpConstruct] at h
        rw [← h.2]
      | nil =>
        simp only [interpConstruct] at h
        cases hg : getInjectors ct s c with
        | none =>
          simp only [hg, Except.ok.injEq, Prod.mk.injEq] at h
          rw [← h.2]
        | some injs =>
          simp only [hg] at h
          cases hd : interpDeps ct env fuel injs s with
          | error e => simp [hd] at h
          | ok q =>
            obtain ⟨vs, s0⟩ := q
            simp only [hd, Except.ok.injEq, Prod.mk.injEq] at h
            rw [← h.2]
            exact ihDeps injs s (vs, s0) hd
    exact ⟨hInv, hRes, hTr, hCon, hDeps⟩

/-- The slot returned by the chain walk really is an own slot of the
returned owner class. -/
theorem findPropSlotAux_mem (s : DIState) (p : String) (l : List ClassId)
    (d : ClassId) (slot : PropSlot)
    (h : findPropSlotAux s p l = some (d, slot)) :
    aget (protoPropsOf s d) p = some slot := by
  induction l with
  | nil => simp [findPropSlotAux] at h
  | cons e rest ih =>
    simp only [findPropSlotAux] at h
    cases he : aget (protoPropsOf s e) p with
    | some sl =>
      simp only [he, Option.some.injEq, Prod.mk.injEq] at h
      rw [← h.1, he, h.2]
    | none =>
      simp only [he] at h
      exact ih h

theorem protoPropsOf_setProtoProp_self (s : DIState) (d : ClassId)
    (p : String) (slot : PropSlot) :
    aget (protoPropsOf (setProtoProp s d p slot) d) p = some slot := by
  simp [protoPropsOf, setProtoProp, aget_aset_self]

/-- Redefining the property on its owner prototype is what every later
chain walk sees: if the walk on state `s` found `(d, slot0)` and `s1` has
the same prototype properties as `s`, then after redefining `p` on `d` in
`s1` the same walk finds `(d, newSlot)`. -/
theorem findPropSlotAux_after_set (s s1 : DIState) (p : String) (d : ClassId)
    (slot0 newSlot : PropSlot) (hprops : s1.protoProps = s.protoProps)
    (l : List ClassId) (h : findPropSlotAux s p l = some (d, slot0)) :
    findPropSlotAux (setProtoProp s1 d p newSlot) p l = some (d, newSlot) := by
  induction l with
  | nil => simp [findPropSlotAux] at h
  | cons e rest ih =>
    simp only [findPropSlotAux] at h ⊢
    cases he : aget (protoPropsOf s e) p with
    | some sl =>
      simp only [he, Option.some.injEq, Prod.mk.injEq] at h
      rw [← h.1]
      rw [protoPropsOf_setProtoProp_self s1 e p newSlot]
    | none =>
      simp only [he] at h
      have hne : e ≠ d := by
        intro hed
        have hd := findPropSlotAux_mem s p rest d slot0 h
        rw [hed] at he
        rw [he] at hd
        cases hd
      have hsame : protoPropsOf (setProtoProp s1 d p newSlot) e =
          protoPropsOf s e := by
        simp only [protoPropsOf, setProtoProp]
        rw [aget_aset_ne s1.protoProps d e _ (fun hde => hne hde.symm), hprops]
      rw [hsame, he]
      exact ih h

/-- C10 — `Lazy` memoizes on the shared prototype.  If the property `p`
read through an instance of class `c` is backed by a `DefineLazyProperty`
getter owned by prototype `d`, and resolving its token succeeds with
instance `v`, then the first read through *any* instance (`instTag` is
arbitrary — decorated properties have no per-instance slot) returns `v`
and replaces the getter by a data property holding `v` on the shared
prototype `d`; afterwards the chain walk from `c` finds that data
property, so every later read through every instance of `c` — including
instances created after the first read — returns the same `v` with the
state unchanged: `Resolve` never fires again for this property. -/
theorem lazy_property_memoizes (ct : ClassTable) (env : Env) (fuel : Nat)
    (instTag : Nat) (c d : ClassId) (p : String) (tok : Token)
    (args : List Value) (s : DIState) (v : Value) (s1 : DIState)
    (hslot : findPropSlot ct s c p = some (d, .lazyG tok args))
    (hres : interpResolve ct env fuel tok args s = .ok (v, s1)) :
    interpReadProp ct env (fuel + 1) instTag c p s =
      .ok (v, setProtoProp s1 d p (.dataV v)) ∧
    findPropSlot ct (setProtoProp s1 d p (.dataV v)) c p =
      some (d, .dataV v) ∧
    (∀ instTag' fuel',
      interpReadProp ct env (fuel' + 1) instTag' c p
          (setProtoProp s1 d p (.dataV v)) =
        .ok (v, setProtoProp s1 d p (.dataV v))) := by
  have hprops : s1.protoProps = s.protoProps :=
    ((interp_preserves_protoProps ct env fuel).2.1) tok args s (v, s1) hres
  have hfind : findPropSlot ct (setProtoProp s1 d p (.dataV v)) c p =
      some (d, .dataV v) :=
    findPropSlotAux_after_set s s1 p d (.lazyG tok args) (.dataV v) hprops
      (protoChain ct c) hslot
  refine ⟨?_, hfind, ?_⟩
  · simp [interpReadProp, hslot, hres]
  · intro instTag' fuel'
    simp [interpReadProp, hfind]

/-- Closed witness for C10: class 6 declares `Lazy("svc")` property
`"val"`; `"svc"` is bound to counting resolver 0.  The first read through
instance 11 constructs `inst 0 0` (counter becomes 1) and installs it as a
data property on the prototype; a later read through a different instance
17 returns the identical value with the state — the counter included —
unchanged. -/
theorem lazy_property_memoizes_witness :
    interpReadProp
        ⟨fun _ => [], fun _ => [], fun c => "class#" ++ toString c⟩
        ⟨fun _ _ => .undef, fun _ v => v, fun _ => .undef⟩
        4 11 6 "val"
        ⟨[("svc", .counting 0)], [], [], [(6, [("val", .lazyG (.name "svc") [])])], []⟩ =
      .ok (.inst 0 0,
        ⟨[("svc", .counting 0)], [], [],
          [(6, [("val", .dataV (.inst 0 0))])], [(0, 1)]⟩) ∧
    interpReadProp
        ⟨fun _ => [], fun _ => [], fun c => "class#" ++ toString c⟩
        ⟨fun _ _ => .undef, fun _ v => v, fun _ => .undef⟩
        4 17 6 "val"
        ⟨[("svc", .counting 0)], [], [],
          [(6, [("val", .dataV (.inst 0 0))])], [(0, 1)]⟩ =
      .ok (.inst 0 0,
        ⟨[("svc", .counting 0)], [], [],
          [(6, [("val", .dataV (.inst 0 0))])], [(0, 1)]⟩) := by
  have h := lazy_property_memoizes
      ⟨fun _ => [], fun _ => [], fun c => "class#" ++ toString c⟩
      ⟨fun _ _ => .undef, fun _ v => v, fun _ => .undef⟩
      3 11 6 6 "val" (.name "svc") []
      ⟨[("svc", .counting 0)], [], [], [(6, [("val", .lazyG (.name "svc") [])])], []⟩
      (.inst 0 0)
      ⟨[("svc", .counting 0)], [], [], [(6, [("val", .lazyG (.name "svc") [])])], [(0, 1)]⟩
      rfl rfl
  exact ⟨h.1, h.2.2 17 3⟩

end MicroDI
